import Mathlib

/-!
Verification development for a WireGuard control-panel server.

The Rust source is shallowly embedded: pure functions become Lean functions,
the HTTP handlers become explicit state-passing functions on the in-memory
dataset, and the external collaborators (key-pair generation/parsing, host
interface enumeration, file persistence, subprocess execution) are passed in
explicitly as an environment record, matching the spec's designation of those
parts as external.
-/

set_option maxRecDepth 4000

/-- Errors of the application, mirroring `error.rs` `AppError`.  Only the
payloads that the embedded code inspects are kept. -/
inductive RestAPIError where
  | fieldMissing (field : String)
  | invalidPrivateKey (key : String)
  deriving DecidableEq, Repr

/-- Mirror of `AppError` in `error.rs`; variants that only carry foreign
errors keep a `String` message payload. -/
inductive AppError where
  | restAPI (e : RestAPIError)
  | serdeJson (msg : String)
  | serdeYaml (msg : String)
  | ioErr (msg : String)
  | wireGuardInterface (msg : String)
  | invalidPublicKey (publicKey : String) (client : String)
  | couldNotGetDefaultInterface (msg : String)
  | invalidServerAddress (addr : String)
  | configuration (msg : String)
  deriving DecidableEq, Repr

/-- Mirror of `WireGuardServerData` in `data/wireguard_server.rs`.
`u16` fields are embedded as `Nat`; well-formedness predicates carry the
`< 2^16` bounds where they matter. -/
structure WireGuardServerData where
  endpoint : String
  address : List String
  dns : List String
  listen_port : Nat
  private_key : String
  public_key : String
  pre_up : Option String
  post_up : Option String
  pre_down : Option String
  post_down : Option String
  table : Option String
  mtu : Option Nat
  deriving DecidableEq, Repr

/-- Mirror of `WireGuardClientData` in `data/wireguard_client.rs`.
The `Uuid` is embedded as its 128-bit value (a `Nat`). -/
structure WireGuardClientData where
  name : String
  uuid : Nat
  enabled : Bool
  preshared_key : Option String
  public_key : String
  server_allowed_ips : List String
  persistent_keep_alive : Option Nat
  private_key : String
  address : String
  client_allowed_ips : List String
  dns : List String
  deriving DecidableEq, Repr

/-- Mirror of `WireGuardOptionalClientData` in `data/wireguard_client.rs`. -/
structure WireGuardOptionalClientData where
  name : Option String
  uuid : Option Nat
  enabled : Option Bool
  generate_preshared_key : Option Bool
  preshared_key : Option String
  server_allowed_ips : Option (List String)
  persistent_keep_alive : Option Nat
  private_key : Option String
  address : Option String
  client_allowed_ips : Option (List String)
  dns : Option (List String)
  deriving DecidableEq, Repr

/-- Mirror of `WireGuardOptionalServerData` in `data/wireguard_server.rs`. -/
structure WireGuardOptionalServerData where
  endpoint : Option String
  address : Option (List String)
  dns : Option (List String)
  listen_port : Option Nat
  private_key : Option String
  pre_up : Option String
  post_up : Option String
  pre_down : Option String
  post_down : Option String
  table : Option String
  mtu : Option Nat
  deriving DecidableEq, Repr

/-- Mirror of `WireGuardData` in `data/wireguard_data.rs`: the dataset. -/
structure WireGuardData where
  server : Option WireGuardServerData
  clients : List WireGuardClientData
  deriving DecidableEq, Repr

/-- Mirror of `AppConfig` in `data/config.rs`. -/
structure AppConfig where
  wireguard_interface : String
  network_interface : String
  address : String
  wireguard_config_path : String
  deriving DecidableEq, Repr

/-- An IPv4 address as four octets (each `< 256` whenever produced by the
parser below), mirroring `std::net::Ipv4Addr`. -/
structure Ipv4 where
  o0 : Nat
  o1 : Nat
  o2 : Nat
  o3 : Nat
  deriving DecidableEq, Repr

/-- External collaborators of one request: the random draws of the key-pair
and uuid generators, key parsing/derivation, host interface lookup, and the
outcome of the synchronous dataset persistence.  These model
`Privkey::generate`, `Secret::generate`, `Uuid::new_v4`, `Privkey::parse`
followed by `.pubkey().to_base64()`, `AppConfig::get_wireguard_network_interface`
(already projected to `ipv4[0].addr`), and `data_manager::save_json_file`. -/
structure Env where
  genPrivkey : String
  genPsk : String
  genUuid : Nat
  pubkeyOf : String → Option String
  hostIpv4 : Except String Ipv4
  saveJson : Except String Unit

/-! ## InterfaceController: `wireguard.rs` subprocess operations

A subprocess invocation is one of the three commands the source spawns; the
executor environment maps a command to either a launch failure (`Except.error`
with the `io::Error` message) or the process exit status.  Each operation
returns its Rust result paired with the list of commands it actually invoked,
so that "never invoked" is expressible. -/

/-- The subprocess commands spawned by `wireguard.rs`: `wg-quick up`,
`wg-quick down`, and `sudo systemctl reload wg-quick@<interface>`. -/
inductive WgCmd where
  | up (interface : String)
  | down (interface : String)
  | reloadCmd (interface : String)
  deriving DecidableEq, Repr

/-- The outcome the OS reports for one spawned command: a launch failure
message, or the exit status of the finished process. -/
def ExecEnv : Type := WgCmd → Except String Int

/-- Mirror of `start_wireguard`: runs `wg-quick up <interface>` and returns
an error only when the command could not be launched; the exit status in the
`Ok` case is discarded (`_ => Ok(())`). -/
def start_wireguard (env : ExecEnv) (interface : String) :
    Except String Unit × List WgCmd :=
  match env (.up interface) with
  | .error e => (.error e, [.up interface])
  | .ok _ => (.ok (), [.up interface])

/-- Mirror of `stop_wireguard`: runs `wg-quick down <interface>`, same
launch-failure-only error handling as `start_wireguard`. -/
def stop_wireguard (env : ExecEnv) (interface : String) :
    Except String Unit × List WgCmd :=
  match env (.down interface) with
  | .error e => (.error e, [.down interface])
  | .ok _ => (.ok (), [.down interface])

/-- Mirror of `reload_wireguard`: runs `sudo systemctl reload
wg-quick@<interface>`; again only a launch failure is an error. -/
def reload_wireguard (env : ExecEnv) (interface : String) :
    Except String Unit × List WgCmd :=
  match env (.reloadCmd interface) with
  | .error e => (.error e, [.reloadCmd interface])
  | .ok _ => (.ok (), [.reloadCmd interface])

/-- Mirror of `RestartWireGuardErrorType` in `wireguard.rs`. -/
inductive RestartWireGuardErrorType where
  | stopFailed (e : String)
  | startFailed (e : String)
  deriving DecidableEq, Repr

/-- Mirror of `restart_wireguard`: stop, and only if that returned `Ok`,
start; each sub-error is wrapped in its own variant. -/
def restart_wireguard (env : ExecEnv) (interface : String) :
    Except RestartWireGuardErrorType Unit × List WgCmd :=
  match stop_wireguard env interface with
  | (.error e, t) => (.error (.stopFailed e), t)
  | (.ok _, t) =>
    match start_wireguard env interface with
    | (.error e, t') => (.error (.startFailed e), t ++ t')
    | (.ok _, t') => (.ok (), t ++ t')

/-! ## AddressAllocator: address derivation in `to_wireguard_client_data`

`data/wireguard_client.rs` lines 59-87: take the first configured server
address, strip everything from the last `/` on, parse as IPv4, increment the
last octet (rolling into the third at 255), render as `a.b.c.d/32`. -/

/-- Split a character list at every occurrence of `sep` (the separators are
dropped); mirrors the splitting a Rust dotted-quad / line parser performs. -/
def splitOnChar (sep : Char) : List Char → List (List Char)
  | [] => [[]]
  | c :: cs =>
    if c = sep then [] :: splitOnChar sep cs
    else
      match splitOnChar sep cs with
      | [] => [[c]]
      | l :: ls => (c :: l) :: ls

/-- Parse one decimal octet the way `Ipv4Addr::from_str` does: one to three
digits, no leading zero (except `"0"` itself), value at most 255. -/
def parseOctet (cs : List Char) : Option Nat :=
  if cs ≠ [] ∧ cs.all Char.isDigit ∧ cs.length ≤ 3 ∧ (cs.head? = some '0' → cs.length = 1) then
    let v := cs.foldl (fun a c => a * 10 + (c.toNat - '0'.toNat)) 0
    if v ≤ 255 then some v else none
  else none

/-- Mirror of `Ipv4Addr::from_str`: four dot-separated octets. -/
def ipv4_from_str (s : String) : Option Ipv4 :=
  match (splitOnChar '.' s.data).map parseOctet with
  | [some a, some b, some c, some d] => some ⟨a, b, c, d⟩
  | _ => none

/-- Mirror of `addr.rsplit_once('/').map(|(ip, _)| ip.to_string()).unwrap_or(addr)`:
everything before the last `/`, or the whole string when there is none. -/
def strip_mask_suffix (s : String) : String :=
  match s.data.reverse.dropWhile (fun c => c ≠ '/') with
  | [] => s
  | _ :: rest => String.mk rest.reverse

/-- The octet increment of `to_wireguard_client_data`: bump the last octet,
rolling into the third octet when the last one has reached 255.  The third
octet is a `u8` in Rust; its possible wrap-around is made explicit. -/
def increment_address (ip : Ipv4) : Ipv4 :=
  if ip.o3 < 255 then { ip with o3 := ip.o3 + 1 }
  else { ip with o2 := (ip.o2 + 1) % 256, o3 := 0 }

/-- Mirror of the `Display` rendering of `Ipv4Addr`. -/
def ipv4_to_string (ip : Ipv4) : String :=
  Nat.repr ip.o0 ++ "." ++ Nat.repr ip.o1 ++ "." ++ Nat.repr ip.o2 ++ "." ++ Nat.repr ip.o3

/-- The base address the allocator starts from (`beginning_address` before the
increment): the server's first configured address with any mask stripped, or
the host's chosen tunnel-adjacent interface address when no server is set.
An empty server address vector panics in Rust (`server.address[0]`); it is
embedded as an `invalidServerAddress` error and is unreachable in every claim. -/
def allocator_base_address (env : Env) (data : WireGuardData) : Except AppError Ipv4 :=
  match data.server with
  | some server =>
    match server.address with
    | [] => .error (.invalidServerAddress "")
    | a0 :: _ =>
      match ipv4_from_str (strip_mask_suffix a0) with
      | some ip => .ok ip
      | none => .error (.invalidServerAddress a0)
  | none =>
    match env.hostIpv4 with
    | .ok ip => .ok ip
    | .error e => .error (.configuration e)

/-- The AddressAllocator: derives the `/32` address string handed to a newly
created client (`let ip = format!("{beginning_address}/32")`). -/
def derive_client_ip (env : Env) (data : WireGuardData) : Except AppError String :=
  (allocator_base_address env data).map
    (fun ip => ipv4_to_string (increment_address ip) ++ "/32")

/-- Mirror of `WireGuardOptionalClientData::to_wireguard_client_data`:
defaults are filled in, the address is derived by the allocator, a preshared
key is generated unless suppressed, and the public key is derived from the
(possibly generated) private key.  Error order follows the Rust evaluation
order: address derivation, then the missing-name check, then key parsing. -/
def to_wireguard_client_data (env : Env) (self : WireGuardOptionalClientData)
    (default_name : Option String) (data : WireGuardData) :
    Except AppError WireGuardClientData := do
  let private_key := self.private_key.getD env.genPrivkey
  let ip ← derive_client_ip env data
  let name ← match self.name.or default_name with
    | some n => Except.ok n
    | none => Except.error (.restAPI (.fieldMissing "name"))
  let public_key ← match env.pubkeyOf private_key with
    | some pk => Except.ok pk
    | none => Except.error (.restAPI (.invalidPrivateKey private_key))
  Except.ok
    { name := name
      uuid := self.uuid.getD env.genUuid
      enabled := self.enabled.getD false
      preshared_key := self.preshared_key.or
        (match self.generate_preshared_key.getD true with
          | true => some env.genPsk
          | false => none)
      public_key := public_key
      server_allowed_ips := self.server_allowed_ips.getD [ip]
      persistent_keep_alive := self.persistent_keep_alive
      private_key := private_key
      address := self.address.getD ip
      client_allowed_ips := self.client_allowed_ips.getD ["0.0.0.0"]
      dns := self.dns.getD [] }

/-- Default `PostUp` hook template of `to_wireguard_server_data`. -/
def default_post_up : String :=
  "iptables -A FORWARD -i {WIREGUARD_INTERFACE} -j ACCEPT; iptables -t nat -A POSTROUTING -o {NETWORK_INTERFACE} -j MASQUERADE"

/-- Default `PostDown` hook template of `to_wireguard_server_data`. -/
def default_post_down : String :=
  "iptables -D FORWARD -i {WIREGUARD_INTERFACE} -j ACCEPT; iptables -t nat -D POSTROUTING -o {NETWORK_INTERFACE} -j MASQUERADE"

/-- Mirror of `WireGuardOptionalServerData::to_wireguard_server_data`. -/
def to_wireguard_server_data (env : Env) (self : WireGuardOptionalServerData)
    (default_endpoint : Option String) : Except AppError WireGuardServerData := do
  let private_key := self.private_key.getD env.genPrivkey
  let endpoint ← match self.endpoint.or default_endpoint with
    | some e => Except.ok e
    | none => Except.error (.restAPI (.fieldMissing "endpoint"))
  let address ← match self.address with
    | some a => Except.ok a
    | none =>
      match env.hostIpv4 with
      | .ok ip => Except.ok [ipv4_to_string ip]
      | .error e => Except.error (AppError.configuration e)
  let public_key ← match env.pubkeyOf private_key with
    | some pk => Except.ok pk
    | none => Except.error (.restAPI (.invalidPrivateKey private_key))
  Except.ok
    { endpoint := endpoint
      address := address
      dns := self.dns.getD []
      listen_port := self.listen_port.getD 51820
      private_key := private_key
      public_key := public_key
      pre_up := self.pre_up
      post_up := self.post_up.or (some default_post_up)
      pre_down := self.pre_down
      post_down := self.post_down.or (some default_post_down)
      table := self.table
      mtu := self.mtu }

/-! ## DataStore: the mutating HTTP handlers of `server.rs`

Each handler is embedded as a function from the locked in-memory dataset (and
the request environment) to the dataset after the handler returns, paired with
the HTTP status code of the response.  The response bodies are formatted
strings in the source and are not modeled; the status code identifies the
outcome (`200`, `400`, `404`, `409`, `500`). -/

/-- The status-code choice `if let AppError::RestAPI(_) = error { BAD_REQUEST } else { INTERNAL_SERVER_ERROR }`. -/
def statusOfAppError (e : AppError) : Nat :=
  match e with
  | .restAPI _ => 400
  | _ => 500

/-- Mirror of `post_wireguard_clients` (create-client): build the new client
record, reject a duplicate UUID with `409 CONFLICT`, otherwise push it and
persist; a persistence failure answers `500` with the mutation kept. -/
def post_wireguard_clients (env : Env) (body : WireGuardOptionalClientData)
    (st : WireGuardData) : WireGuardData × Nat :=
  match to_wireguard_client_data env body none st with
  | .error e => (st, statusOfAppError e)
  | .ok new_client =>
    if st.clients.any (fun client => client.uuid = new_client.uuid) then
      (st, 409)
    else
      let st' : WireGuardData := { st with clients := st.clients ++ [new_client] }
      match env.saveJson with
      | .ok _ => (st', 200)
      | .error _ => (st', 500)

/-- Mirror of `put_wireguard_client` (update-client by uuid): replace the
first record whose UUID matches the path parameter with the request body, or
answer `404` when none matches. -/
def put_wireguard_client (env : Env) (uuid : Nat) (body : WireGuardClientData)
    (st : WireGuardData) : WireGuardData × Nat :=
  match st.clients.findIdx? (fun client => client.uuid = uuid) with
  | some index =>
    let st' : WireGuardData := { st with clients := st.clients.set index body }
    match env.saveJson with
    | .ok _ => (st', 200)
    | .error _ => (st', 500)
  | none => (st, 404)

/-- Mirror of `put_wireguard_clients` (replace-all): install the request body
as the whole client list, then persist. -/
def put_wireguard_clients (env : Env) (body : List WireGuardClientData)
    (st : WireGuardData) : WireGuardData × Nat :=
  let st' : WireGuardData := { st with clients := body }
  match env.saveJson with
  | .ok _ => (st', 200)
  | .error _ => (st', 500)

/-- Mirror of `put_wireguard_server` (upsert server): convert the optional
body (defaulting the endpoint from the current record), install it, persist. -/
def put_wireguard_server (env : Env) (body : Option WireGuardOptionalServerData)
    (st : WireGuardData) : WireGuardData × Nat :=
  let conv : Except AppError (Option WireGuardServerData) :=
    match body with
    | some b => (to_wireguard_server_data env b (st.server.map (fun s => s.endpoint))).map some
    | none => .ok none
  match conv with
  | .error e => (st, statusOfAppError e)
  | .ok server =>
    let st' : WireGuardData := { st with server := server }
    match env.saveJson with
    | .ok _ => (st', 200)
    | .error _ => (st', 500)

/-- Mirror of `delete_wireguard_server`: clear the server record, persist. -/
def delete_wireguard_server (env : Env) (st : WireGuardData) : WireGuardData × Nat :=
  let st' : WireGuardData := { st with server := none }
  match env.saveJson with
  | .ok _ => (st', 200)
  | .error _ => (st', 500)

/-- The UUIDs of the dataset's clients, in order. -/
def clientUuids (st : WireGuardData) : List Nat :=
  st.clients.map (fun client => client.uuid)

/-! ## PeerReconciler: `get_peers` in `wireguard.rs`

The live interface snapshot (`read_interface_data()?.peers`) is a map from
parsed public keys to live peers; it is embedded as an association list.
Stored public keys are parsed by the external `Key::from_str`, embedded as a
parsing oracle. -/

/-- Live counters of one peer as read from the running interface
(`defguard_wireguard_rs::host::Peer`, the fields `get_peers` copies). -/
structure RawPeer where
  allowed_ips : List String
  protocol_version : Option Nat
  endpoint : Option String
  tx_bytes : Nat
  rx_bytes : Nat
  last_handshake : Option Nat
  deriving DecidableEq, Repr

/-- Mirror of `WireGuardPeer` in `data/wireguard_peer.rs` (the
RuntimePeerView). -/
structure WireGuardPeer where
  name : String
  uuid : Nat
  server_allowed_ips : List String
  address : String
  protocol_version : Option Nat
  endpoint : Option String
  dns : List String
  transmitted_bytes : Nat
  received_bytes : Nat
  last_handshake : Option Nat
  deriving DecidableEq, Repr

/-- The `WireGuardPeer` built for a stored client found live in the snapshot:
identity fields from the stored record, counters from the live peer. -/
def mkWireGuardPeer (client : WireGuardClientData) (raw : RawPeer) : WireGuardPeer :=
  { name := client.name
    uuid := client.uuid
    server_allowed_ips := raw.allowed_ips
    address := client.address
    protocol_version := raw.protocol_version
    endpoint := raw.endpoint
    dns := client.dns
    transmitted_bytes := raw.tx_bytes
    received_bytes := raw.rx_bytes
    last_handshake := raw.last_handshake }

/-- Mirror of the loop body of `get_peers`: walk the stored client list in
order; parse each stored public key (aborting with `InvalidPublicKey` naming
the client on failure); emit a `WireGuardPeer` only when the parsed key is
present in the snapshot.  `parseKey` embeds `Key::from_str`; the snapshot maps
parsed keys to live peers. -/
def get_peers_clients (parseKey : String → Except String String)
    (snapshot : List (String × RawPeer)) :
    List WireGuardClientData → Except AppError (List WireGuardPeer)
  | [] => .ok []
  | client :: rest =>
    match parseKey client.public_key with
    | .error _ => .error (.invalidPublicKey client.public_key client.name)
    | .ok key =>
      match snapshot.lookup key with
      | some raw =>
        match get_peers_clients parseKey snapshot rest with
        | .ok tl => .ok (mkWireGuardPeer client raw :: tl)
        | .error e => .error e
      | none => get_peers_clients parseKey snapshot rest

/-- Mirror of `get_peers`: read the live snapshot (its failure propagates as
a `WireGuardInterface` error), then reconcile the stored client list. -/
def get_peers (parseKey : String → Except String String)
    (snapshotResult : Except String (List (String × RawPeer)))
    (data : WireGuardData) : Except AppError (List WireGuardPeer) :=
  match snapshotResult with
  | .error e => .error (.wireGuardInterface e)
  | .ok snapshot => get_peers_clients parseKey snapshot data.clients

/-! ## ConfigRenderer: `get_interface_config`, `get_server_peer_config`,
`get_server_config`, and the config-file write `save_wireguard_config`. -/

/-- Lowercase hex digit characters, for rendering a `Uuid`. -/
def hexChar (n : Nat) : Char :=
  match n with
  | 0 => '0' | 1 => '1' | 2 => '2' | 3 => '3' | 4 => '4'
  | 5 => '5' | 6 => '6' | 7 => '7' | 8 => '8' | 9 => '9'
  | 10 => 'a' | 11 => 'b' | 12 => 'c' | 13 => 'd' | 14 => 'e'
  | _ => 'f'

/-- The `width` low hex digits of `n`, most significant first. -/
def toHexFixed : Nat → Nat → List Char
  | 0, _ => []
  | width + 1, n => toHexFixed width (n / 16) ++ [hexChar (n % 16)]

/-- The `simple` rendering of a `Uuid` (32 lowercase hex digits, no
hyphens), used by `uuid::serde::simple::serialize`. -/
def uuidSimple (u : Nat) : String :=
  String.mk (toHexFixed 32 u)

/-- The hyphenated character sequence of a `Uuid`: 32 hex digits grouped
8-4-4-4-12. -/
def uuidChars (u : Nat) : List Char :=
  (toHexFixed 32 u).take 8 ++ '-' :: ((toHexFixed 32 u).drop 8).take 4
    ++ '-' :: ((toHexFixed 32 u).drop 12).take 4
    ++ '-' :: ((toHexFixed 32 u).drop 16).take 4 ++ '-' :: (toHexFixed 32 u).drop 20

/-- The `Display` rendering of a `Uuid` (`format!("{}", uuid)`): the 32 hex
digits hyphenated 8-4-4-4-12. -/
def uuidToString (u : Nat) : String :=
  String.mk (uuidChars u)

/-- Mirror of Rust's `Vec::join(",")` on strings. -/
def joinComma : List String → String
  | [] => ""
  | [x] => x
  | x :: xs => x ++ "," ++ joinComma xs

/-- Mirror of `WireGuardClientData::get_server_peer_config`: the `[Peer]`
block rendered into the server config.  A disabled client gets every
subsequent line prefixed with `# `; the name and UUID lines are always
comments. -/
def get_server_peer_config (c : WireGuardClientData) : String :=
  let result := "# Name: " ++ c.name
  let result := result ++ ("\n# UUID: " ++ uuidToString c.uuid)
  let pfx : String := if c.enabled then "\n" else "\n# "
  let result := result ++ (pfx ++ "[Peer]")
  let result := result ++ (pfx ++ ("PublicKey = " ++ c.public_key))
  let result := result ++
    (match c.preshared_key with
      | some preshared_key => pfx ++ ("PresharedKey = " ++ preshared_key)
      | none => "")
  let result := result ++ (pfx ++ ("AllowedIPs = " ++ joinComma c.server_allowed_ips))
  let result := result ++
    (match c.persistent_keep_alive with
      | some persistent_keep_alive => pfx ++ ("PersistentKeepAlive = " ++ Nat.repr persistent_keep_alive)
      | none => "")
  result

/-- Mirror of `replace_interface_vars` in `get_interface_config`. -/
def replace_interface_vars (s : String) (app_config : AppConfig) : String :=
  (s.replace "{WIREGUARD_INTERFACE}" app_config.wireguard_interface).replace
    "{NETWORK_INTERFACE}" app_config.network_interface

/-- Mirror of `WireGuardServerData::get_interface_config`: the `[Interface]`
section of the rendered server config. -/
def get_interface_config (s : WireGuardServerData) (app_config : AppConfig) : String :=
  let result := "[Interface]"
  let result := result ++ ("\nAddress = " ++ joinComma s.address)
  let result := result ++ ("\nListenPort = " ++ Nat.repr s.listen_port)
  let result := result ++ ("\nPrivateKey = " ++ s.private_key)
  let result := result ++
    (if s.dns.isEmpty then "" else "\nDNS = " ++ joinComma s.dns)
  let second_part := ""
  let second_part := second_part ++
    (match s.table with
      | some table => "\nTable = " ++ table
      | none => "")
  let second_part := second_part ++
    (match s.mtu with
      | some mtu => "\nMTU = " ++ Nat.repr mtu
      | none => "")
  let second_part := second_part ++
    (match s.pre_up with
      | some pre_up => "\nPreUp = " ++ replace_interface_vars pre_up app_config
      | none => "")
  let second_part := second_part ++
    (match s.post_up with
      | some post_up => "\nPostUp = " ++ replace_interface_vars post_up app_config
      | none => "")
  let second_part := second_part ++
    (match s.pre_down with
      | some pre_down => "\nPreDown = " ++ replace_interface_vars pre_down app_config
      | none => "")
  let second_part := second_part ++
    (match s.post_down with
      | some post_down => "\nPostDown = " ++ replace_interface_vars post_down app_config
      | none => "")
  if second_part.isEmpty then result else result ++ ("\n" ++ second_part)

/-- Renders the peer blocks appended after the interface section
(`for client in &self.clients { result += format!("\n\n{}", ...) }`). -/
def peer_blocks : List WireGuardClientData → String
  | [] => ""
  | c :: cs => ("\n\n" ++ get_server_peer_config c) ++ peer_blocks cs

/-- Mirror of `WireGuardData::get_server_config`: `None` when no server
record exists, otherwise header, interface section, one peer block per
client, and a trailing newline. -/
def get_server_config (data : WireGuardData) (app_config : AppConfig) : Option String :=
  match data.server with
  | none => none
  | some server =>
    let result := "# Generated from WireGuard UI\n" ++ "# Do not edit manually!\n\n"
    let result := result ++ get_interface_config server app_config
    let result := result ++ peer_blocks data.clients
    some (result ++ "\n")

/-- Mirror of `data_manager::save_wireguard_config`: the bytes written to the
config file — `File::create` truncates, so after the call the file holds
exactly `config.unwrap_or_default()`. -/
def save_wireguard_config (data : WireGuardData) (app_config : AppConfig) : String :=
  (get_server_config data app_config).getD ""

/-- The configuration file's content after `save_wireguard_config`: the
previous content is irrelevant because `File::create` truncates. -/
def config_file_after_save (previous : String) (data : WireGuardData)
    (app_config : AppConfig) : String :=
  let _ := previous
  save_wireguard_config data app_config

/-! ## Persistence: the JSON dataset file of `data_manager.rs`

`save_json_file` serializes the dataset with `serde_json` and overwrites
`data.json`; `read_json_file` parses the file back.  The text layer
(`serde_json::to_string_pretty` / `from_str`) is one of the spec's excluded
external collaborators and is a faithful inverse pair on JSON trees, so the
file is embedded as holding the JSON tree itself; the serde-derive field
encoding (names, declaration order, `Option` as `null`, the `uuid` simple
hex form, the `#[serde(default)]` client list) is embedded explicitly. -/

/-- A JSON value.  Numbers are `Nat` since every numeric field of the dataset
is an unsigned integer (`u16`/`u128`). -/
inductive Json where
  | null
  | bool (b : Bool)
  | num (n : Nat)
  | str (s : String)
  | arr (xs : List Json)
  | obj (fields : List (String × Json))

/-- Numeric value of one hex digit, upper or lower case. -/
def hexVal (c : Char) : Option Nat :=
  if '0' ≤ c ∧ c ≤ '9' then some (c.toNat - '0'.toNat)
  else if 'a' ≤ c ∧ c ≤ 'f' then some (c.toNat - 'a'.toNat + 10)
  else if 'A' ≤ c ∧ c ≤ 'F' then some (c.toNat - 'A'.toNat + 10)
  else none

/-- Parse a `Uuid` string: 32 hex digits, hyphens ignored, as the `uuid`
crate's `Deserialize` accepts both the simple and the hyphenated form. -/
def parseUuidStr (s : String) : Option Nat :=
  let cs := s.data.filter (fun c => c ≠ '-')
  if cs.length = 32 ∧ cs.all (fun c => (hexVal c).isSome) then
    some (cs.foldl (fun a c => a * 16 + (hexVal c).getD 0) 0)
  else none

/-- Deserialize a JSON string. -/
def parseStr : Json → Except String String
  | .str s => .ok s
  | _ => .error "expected string"

/-- Deserialize a JSON boolean. -/
def parseBool : Json → Except String Bool
  | .bool b => .ok b
  | _ => .error "expected boolean"

/-- Deserialize a `u16` field: a JSON number in range. -/
def parseU16 : Json → Except String Nat
  | .num n => if n < 65536 then .ok n else .error "u16 out of range"
  | _ => .error "expected number"

/-- Deserialize a `Uuid` field. -/
def parseUuid : Json → Except String Nat
  | .str s =>
    match parseUuidStr s with
    | some u => .ok u
    | none => .error "invalid uuid"
  | _ => .error "expected uuid string"

/-- Deserialize a `Vec<String>` field. -/
def parseStrListAux : List Json → Except String (List String)
  | [] => .ok []
  | j :: js => do
    let s ← parseStr j
    let r ← parseStrListAux js
    Except.ok (s :: r)

/-- Deserialize a JSON array of strings. -/
def parseStrList : Json → Except String (List String)
  | .arr xs => parseStrListAux xs
  | _ => .error "expected array"

/-- Deserialize a required field: serde errors when it is missing. -/
def parseReq (f : Json → Except String α) : Option Json → Except String α
  | some j => f j
  | none => .error "missing field"

/-- Deserialize an `Option<T>` field: serde maps a missing field and `null`
to `None`. -/
def parseOptWith (f : Json → Except String α) : Option Json → Except String (Option α)
  | none => .ok none
  | some .null => .ok none
  | some j => (f j).map some

/-- Serialize an `Option<String>` field (serde: `None` becomes `null`). -/
def jsonOfOptStr : Option String → Json
  | none => .null
  | some s => .str s

/-- Serialize an `Option<u16>` field. -/
def jsonOfOptNum : Option Nat → Json
  | none => .null
  | some n => .num n

/-- serde serialization of `WireGuardClientData`, fields in declaration
order, the uuid through `uuid::serde::simple::serialize`. -/
def serialize_client (c : WireGuardClientData) : Json :=
  .obj
    [("name", .str c.name),
     ("uuid", .str (uuidSimple c.uuid)),
     ("enabled", .bool c.enabled),
     ("preshared_key", jsonOfOptStr c.preshared_key),
     ("public_key", .str c.public_key),
     ("server_allowed_ips", .arr (c.server_allowed_ips.map Json.str)),
     ("persistent_keep_alive", jsonOfOptNum c.persistent_keep_alive),
     ("private_key", .str c.private_key),
     ("address", .str c.address),
     ("client_allowed_ips", .arr (c.client_allowed_ips.map Json.str)),
     ("dns", .arr (c.dns.map Json.str))]

/-- serde deserialization of `WireGuardClientData`. -/
def deserialize_client (j : Json) : Except String WireGuardClientData :=
  match j with
  | .obj fields => do
    let name ← parseReq parseStr (fields.lookup "name")
    let uuid ← parseReq parseUuid (fields.lookup "uuid")
    let enabled ← parseReq parseBool (fields.lookup "enabled")
    let preshared_key ← parseOptWith parseStr (fields.lookup "preshared_key")
    let public_key ← parseReq parseStr (fields.lookup "public_key")
    let server_allowed_ips ← parseReq parseStrList (fields.lookup "server_allowed_ips")
    let persistent_keep_alive ← parseOptWith parseU16 (fields.lookup "persistent_keep_alive")
    let private_key ← parseReq parseStr (fields.lookup "private_key")
    let address ← parseReq parseStr (fields.lookup "address")
    let client_allowed_ips ← parseReq parseStrList (fields.lookup "client_allowed_ips")
    let dns ← parseReq parseStrList (fields.lookup "dns")
    Except.ok
      { name := name, uuid := uuid, enabled := enabled,
        preshared_key := preshared_key, public_key := public_key,
        server_allowed_ips := server_allowed_ips,
        persistent_keep_alive := persistent_keep_alive,
        private_key := private_key, address := address,
        client_allowed_ips := client_allowed_ips, dns := dns }
  | _ => .error "expected client object"

/-- serde serialization of `WireGuardServerData`. -/
def serialize_server (s : WireGuardServerData) : Json :=
  .obj
    [("endpoint", .str s.endpoint),
     ("address", .arr (s.address.map Json.str)),
     ("dns", .arr (s.dns.map Json.str)),
     ("listen_port", .num s.listen_port),
     ("private_key", .str s.private_key),
     ("public_key", .str s.public_key),
     ("pre_up", jsonOfOptStr s.pre_up),
     ("post_up", jsonOfOptStr s.post_up),
     ("pre_down", jsonOfOptStr s.pre_down),
     ("post_down", jsonOfOptStr s.post_down),
     ("table", jsonOfOptStr s.table),
     ("mtu", jsonOfOptNum s.mtu)]

/-- serde deserialization of `WireGuardServerData`. -/
def deserialize_server (j : Json) : Except String WireGuardServerData :=
  match j with
  | .obj fields => do
    let endpoint ← parseReq parseStr (fields.lookup "endpoint")
    let address ← parseReq parseStrList (fields.lookup "address")
    let dns ← parseReq parseStrList (fields.lookup "dns")
    let listen_port ← parseReq parseU16 (fields.lookup "listen_port")
    let private_key ← parseReq parseStr (fields.lookup "private_key")
    let public_key ← parseReq parseStr (fields.lookup "public_key")
    let pre_up ← parseOptWith parseStr (fields.lookup "pre_up")
    let post_up ← parseOptWith parseStr (fields.lookup "post_up")
    let pre_down ← parseOptWith parseStr (fields.lookup "pre_down")
    let post_down ← parseOptWith parseStr (fields.lookup "post_down")
    let table ← parseOptWith parseStr (fields.lookup "table")
    let mtu ← parseOptWith parseU16 (fields.lookup "mtu")
    Except.ok
      { endpoint := endpoint, address := address, dns := dns,
        listen_port := listen_port, private_key := private_key,
        public_key := public_key, pre_up := pre_up, post_up := post_up,
        pre_down := pre_down, post_down := post_down, table := table,
        mtu := mtu }
  | _ => .error "expected server object"

/-- Deserialize the client array. -/
def parseClientsAux : List Json → Except String (List WireGuardClientData)
  | [] => .ok []
  | j :: js => do
    let c ← deserialize_client j
    let r ← parseClientsAux js
    Except.ok (c :: r)

/-- serde serialization of `WireGuardData`. -/
def serialize_wireguard_data (d : WireGuardData) : Json :=
  .obj
    [("server", match d.server with
        | none => Json.null
        | some s => serialize_server s),
     ("clients", .arr (d.clients.map serialize_client))]

/-- serde deserialization of `WireGuardData`: the `server` field is an
`Option`, and `clients` carries `#[serde(default = "Vec::new")]`, so a
missing list becomes `[]`. -/
def deserialize_wireguard_data (j : Json) : Except String WireGuardData :=
  match j with
  | .obj fields => do
    let server ← parseOptWith deserialize_server (fields.lookup "server")
    let clients ← match fields.lookup "clients" with
      | none => Except.ok []
      | some (.arr xs) => parseClientsAux xs
      | some _ => Except.error "expected client array"
    Except.ok { server := server, clients := clients }
  | _ => .error "expected dataset object"

/-- Mirror of `save_json_file`: the JSON tree written to `data.json`
(`serde_json::to_string_pretty` renders it; the text layer is exact). -/
def save_json_file (d : WireGuardData) : Json :=
  serialize_wireguard_data d

/-- Mirror of `read_json_file` applied to a file that holds a stored JSON
tree (the empty-file-to-`{}` default path is not involved after a save). -/
def read_json_file (stored : Json) : Except String WireGuardData :=
  deserialize_wireguard_data stored

/-! ## Lines of a rendered block

The claims about the rendered peer block speak about its lines; a line
decomposition of a character list and the comment-prefix test formalize
that vocabulary. -/

/-- The lines of a rendered string. -/
def linesOf (s : String) : List (List Char) :=
  splitOnChar '\n' s.data

/-- A line that begins with the comment marker `# `. -/
def isCommentLine (l : List Char) : Bool :=
  match l with
  | '#' :: ' ' :: _ => true
  | _ => false

/-- Join segments with a separator character: the inverse shape of
`splitOnChar`. -/
def joinSep (sep : Char) : List (List Char) → List Char
  | [] => []
  | [x] => x
  | x :: xs => x ++ sep :: joinSep sep xs

/-- Every line of a character sequence begins with the `# ` comment marker. -/
def allCommented (l : List Char) : Prop :=
  ∀ line ∈ splitOnChar '\n' l, isCommentLine line = true

instance (l : List Char) : Decidable (allCommented l) :=
  inferInstanceAs (Decidable (∀ line ∈ splitOnChar '\n' l, isCommentLine line = true))


/-- Well-formedness of a client record: the bounds the Rust types `u128` and
`u16` impose on the fields embedded as `Nat`. -/
def wfClient (c : WireGuardClientData) : Prop :=
  c.uuid < 2 ^ 128 ∧ ∀ k ∈ c.persistent_keep_alive, k < 65536

/-- Well-formedness of a server record: the `u16` bounds. -/
def wfServer (s : WireGuardServerData) : Prop :=
  s.listen_port < 65536 ∧ ∀ m ∈ s.mtu, m < 65536

/-- Well-formedness of a dataset: every record obeys its Rust integer bounds. -/
def wfData (d : WireGuardData) : Prop :=
  (∀ s ∈ d.server, wfServer s) ∧ ∀ c ∈ d.clients, wfClient c


/-! ## Concrete fixtures used by witnesses and counterexamples -/

/-- A concrete client record with a chosen UUID. -/
def mkTestClient (u : Nat) : WireGuardClientData :=
  { name := "c", uuid := u, enabled := false, preshared_key := none,
    public_key := "PK", server_allowed_ips := ["10.8.0.2/32"],
    persistent_keep_alive := none, private_key := "sk",
    address := "10.8.0.2/32", client_allowed_ips := ["0.0.0.0"], dns := [] }

/-- A concrete server record with base address `10.8.0.1/24`. -/
def testServer : WireGuardServerData :=
  { endpoint := "srv.example:51820", address := ["10.8.0.1/24"], dns := [],
    listen_port := 51820, private_key := "sk", public_key := "PK",
    pre_up := none, post_up := none, pre_down := none, post_down := none,
    table := none, mtu := none }

/-- A request environment whose persistence succeeds. -/
def testEnvOk : Env :=
  { genPrivkey := "G", genPsk := "S", genUuid := 7,
    pubkeyOf := fun k => some ("pub-" ++ k),
    hostIpv4 := .error "no host interface", saveJson := .ok () }

/-- A request environment whose persistence fails. -/
def testEnvSaveFail : Env :=
  { testEnvOk with saveJson := .error "disk full" }

/-- A concrete create-client request body with an explicit UUID. -/
def testBody : WireGuardOptionalClientData :=
  { name := some "n", uuid := some 1, enabled := some true,
    generate_preshared_key := some false, preshared_key := none,
    server_allowed_ips := some ["10.8.0.9/32"], persistent_keep_alive := none,
    private_key := some "KEY", address := some "10.8.0.9/32",
    client_allowed_ips := some ["0.0.0.0/0"], dns := some [] }

/-- A concrete application configuration. -/
def testCfg : AppConfig :=
  { wireguard_interface := "wg0", network_interface := "eth0",
    address := "0.0.0.0:6252", wireguard_config_path := "/etc/wireguard/wg0.conf" }

/-- A concrete live peer snapshot entry. -/
def testRaw : RawPeer :=
  { allowed_ips := ["10.8.0.2/32"], protocol_version := some 1,
    endpoint := some "1.2.3.4:5", tx_bytes := 10, rx_bytes := 20,
    last_handshake := some 99 }

/-- A key parser that rejects exactly the string `"BAD"`. -/
def testParseKey : String → Except String String :=
  fun s => if s = "BAD" then .error "malformed key" else .ok s

/-- An executor whose commands always launch and exit with status 1. -/
def exitOneEnv : ExecEnv := fun _ => .ok 1

/-- An executor whose commands always launch and exit with status 0. -/
def exitZeroEnv : ExecEnv := fun _ => .ok 0

/-- An executor whose commands always fail to launch. -/
def launchFailEnv : ExecEnv := fun _ => .error "boom"

/-- An executor where `wg-quick down` succeeds and everything else fails to
launch. -/
def downOkUpFailEnv : ExecEnv := fun c =>
  match c with
  | .down _ => .ok 0
  | _ => .error "upfail"

/-- A disabled client whose name contains an embedded newline. -/
def badNameClient : WireGuardClientData :=
  { name := "x\ny", uuid := 0, enabled := false, preshared_key := none,
    public_key := "PK", server_allowed_ips := ["10.8.0.2/32"],
    persistent_keep_alive := none, private_key := "sk", address := "a",
    client_allowed_ips := [], dns := [] }


theorem splitOnChar_ne_nil (sep : Char) (l : List Char) : splitOnChar sep l ≠ [] := by
  induction l with
  | nil => simp [splitOnChar]
  | cons c cs ih =>
    rw [splitOnChar]
    by_cases h : c = sep
    · simp [h]
    · simp only [if_neg h]
      rcases hs : splitOnChar sep cs with _ | ⟨a, as⟩
      · simp
      · simp

theorem splitOnChar_not_mem {sep : Char} {l : List Char} (h : sep ∉ l) :
    splitOnChar sep l = [l] := by
  induction l with
  | nil => rfl
  | cons c cs ih =>
    have hc : ¬ c = sep := fun hc => h (by simp [hc])
    rw [splitOnChar, if_neg hc, ih (fun hm => h (List.mem_cons_of_mem _ hm))]

theorem splitOnChar_append_sep (sep : Char) (a b : List Char) :
    splitOnChar sep (a ++ sep :: b) = splitOnChar sep a ++ splitOnChar sep b := by
  induction a with
  | nil => simp [splitOnChar]
  | cons c cs ih =>
    by_cases h : c = sep
    · subst h
      simp [splitOnChar, ih]
    · rcases hs : splitOnChar sep cs with _ | ⟨x, xs⟩
      · exact absurd hs (splitOnChar_ne_nil sep cs)
      · rw [List.cons_append, splitOnChar, if_neg h, ih, hs]
        rw [splitOnChar, if_neg h, hs]
        simp

theorem splitOnChar_joinSep (sep : Char) :
    ∀ segs : List (List Char), segs ≠ [] → (∀ s ∈ segs, sep ∉ s) →
      splitOnChar sep (joinSep sep segs) = segs := by
  intro segs
  induction segs with
  | nil => intro h; exact absurd rfl h
  | cons x xs ih =>
    intro _ hmem
    rcases xs with _ | ⟨y, ys⟩
    · exact splitOnChar_not_mem (hmem x (by simp))
    · have h1 : splitOnChar sep (joinSep sep (y :: ys)) = y :: ys :=
        ih (List.cons_ne_nil y ys) (fun s hs => hmem s (List.mem_cons_of_mem _ hs))
      rw [joinSep, splitOnChar_append_sep, splitOnChar_not_mem (hmem x (by simp)), h1]
      · rfl
      · exact fun hh => List.noConfusion hh

theorem digitChar_ne_newline (n : Nat) : Nat.digitChar n ≠ '\n' := by
  by_cases h : n < 16
  · interval_cases n <;> decide
  · obtain ⟨m, rfl⟩ : ∃ m, n = m + 16 := ⟨n - 16, by omega⟩
    have hm : Nat.digitChar (m + 16) = '*' := rfl
    rw [hm]
    decide

theorem toDigitsCore_ne_newline :
    ∀ (fuel n : Nat) (ds : List Char), (∀ c ∈ ds, c ≠ '\n') →
      ∀ c ∈ Nat.toDigitsCore 10 fuel n ds, c ≠ '\n' := by
  intro fuel
  induction fuel with
  | zero => intro n ds h c hc; exact h c hc
  | succ f ih =>
    intro n ds h c hc
    have hd : ∀ c' ∈ (Nat.digitChar (n % 10) :: ds), c' ≠ '\n' := by
      intro c' hc'
      rcases List.mem_cons.mp hc' with rfl | hm
      · exact digitChar_ne_newline _
      · exact h _ hm
    rw [Nat.toDigitsCore] at hc
    split at hc
    · exact hd c hc
    · exact ih _ _ hd c hc

theorem natRepr_ne_newline (n : Nat) : '\n' ∉ (Nat.repr n).data := by
  intro h
  exact toDigitsCore_ne_newline (n + 1) n [] (by simp) '\n' h rfl

theorem hexChar_ne_newline (n : Nat) : hexChar n ≠ '\n' := by
  by_cases h : n < 16
  · interval_cases n <;> decide
  · obtain ⟨m, rfl⟩ : ∃ m, n = m + 16 := ⟨n - 16, by omega⟩
    have hm : hexChar (m + 16) = 'f' := rfl
    rw [hm]
    decide

theorem mem_toHexFixed {c : Char} :
    ∀ {w n : Nat}, c ∈ toHexFixed w n → ∃ d, c = hexChar d := by
  intro w
  induction w with
  | zero => intro n h; simp [toHexFixed] at h
  | succ w ih =>
    intro n h
    rw [toHexFixed] at h
    rcases List.mem_append.mp h with h' | h'
    · exact ih h'
    · exact ⟨n % 16, by simpa using h'⟩

theorem uuidToString_ne_newline (u : Nat) : '\n' ∉ (uuidToString u).data := by
  intro h
  have hx : ∀ c ∈ toHexFixed 32 u, c ≠ '\n' := by
    intro c hc
    obtain ⟨d, rfl⟩ := mem_toHexFixed hc
    exact hexChar_ne_newline d
  have hdata : (uuidToString u).data = uuidChars u := rfl
  rw [hdata, uuidChars] at h
  rcases List.mem_append.mp h with h | h
  · rcases List.mem_append.mp h with h | h
    · rcases List.mem_append.mp h with h | h
      · rcases List.mem_append.mp h with h | h
        · exact hx _ (List.take_subset _ _ h) rfl
        · rcases List.mem_cons.mp h with h | h
          · exact absurd h (by decide)
          · exact hx _ (List.drop_subset _ _ (List.take_subset _ _ h)) rfl
      · rcases List.mem_cons.mp h with h | h
        · exact absurd h (by decide)
        · exact hx _ (List.drop_subset _ _ (List.take_subset _ _ h)) rfl
    · rcases List.mem_cons.mp h with h | h
      · exact absurd h (by decide)
      · exact hx _ (List.drop_subset _ _ (List.take_subset _ _ h)) rfl
  · rcases List.mem_cons.mp h with h | h
    · exact absurd h (by decide)
    · exact hx _ (List.drop_subset _ _ h) rfl

theorem allCommented_single {l : List Char} (h : '\n' ∉ l) (hc : isCommentLine l = true) :
    allCommented l := by
  intro line hline
  rw [splitOnChar_not_mem h] at hline
  simp only [List.mem_singleton] at hline
  rwa [hline]

theorem allCommented_append_chunk {s q : List Char} (hs : allCommented s) (hq : '\n' ∉ q) :
    allCommented (s ++ '\n' :: '#' :: ' ' :: q) := by
  intro line hline
  rw [splitOnChar_append_sep] at hline
  rcases List.mem_append.mp hline with h | h
  · exact hs line h
  · have hnm : ('\n' : Char) ∉ '#' :: ' ' :: q := by
      intro hm
      rcases List.mem_cons.mp hm with hm | hm
      · exact absurd hm (by decide)
      rcases List.mem_cons.mp hm with hm | hm
      · exact absurd hm (by decide)
      · exact hq hm
    rw [splitOnChar_not_mem hnm] at h
    simp only [List.mem_singleton] at h
    rw [h]
    rfl

theorem allCommented_step (s : String) (q : String) (hs : allCommented s.data)
    (hq : '\n' ∉ q.data) : allCommented ((s ++ ("\n# " ++ q)).data) := by
  have heq : (s ++ ("\n# " ++ q)).data = s.data ++ '\n' :: '#' :: ' ' :: q.data := rfl
  rw [heq]
  exact allCommented_append_chunk hs hq

theorem allCommented_append_empty (s : String) (hs : allCommented s.data) :
    allCommented ((s ++ "").data) := by
  have heq : (s ++ "").data = s.data := by simp
  rwa [heq]

theorem ne_newline_append {a b : String} (ha : '\n' ∉ a.data) (hb : '\n' ∉ b.data) :
    '\n' ∉ (a ++ b).data := by
  rw [String.data_append]
  intro hm
  rcases List.mem_append.mp hm with h | h
  · exact ha h
  · exact hb h

theorem allCommented_name_line (name : String) (h : '\n' ∉ name.data) :
    allCommented (("# Name: " ++ name).data) := by
  apply allCommented_single
  · exact ne_newline_append (by decide) h
  · rfl

theorem joinComma_ne_newline (ips : List String) (h : ∀ ip ∈ ips, '\n' ∉ ip.data) :
    '\n' ∉ (joinComma ips).data := by
  induction ips with
  | nil => simp [joinComma]
  | cons x xs ih =>
    rcases xs with _ | ⟨y, ys⟩
    · simpa [joinComma] using h x (by simp)
    · intro hmem
      have heq : (joinComma (x :: y :: ys)).data =
          (x.data ++ [',']) ++ (joinComma (y :: ys)).data := rfl
      rw [heq] at hmem
      rcases List.mem_append.mp hmem with hm | hm
      · rcases List.mem_append.mp hm with hm2 | hm2
        · exact h x (by simp) hm2
        · simp at hm2
      · exact ih (fun ip hip => h ip (List.mem_cons_of_mem _ hip)) hm

theorem disabled_block_commented (c : WireGuardClientData)
    (hen : c.enabled = false)
    (hname : '\n' ∉ c.name.data)
    (hpk : '\n' ∉ c.public_key.data)
    (hpsk : ∀ k, c.preshared_key = some k → '\n' ∉ k.data)
    (hips : ∀ ip ∈ c.server_allowed_ips, '\n' ∉ ip.data) :
    allCommented (get_server_peer_config c).data := by
  have huuid : '\n' ∉ ("UUID: " ++ uuidToString c.uuid).data :=
    ne_newline_append (by decide) (uuidToString_ne_newline c.uuid)
  have hpeer : ('\n' : Char) ∉ ("[Peer]" : String).data := by decide
  have hpkq : '\n' ∉ ("PublicKey = " ++ c.public_key).data :=
    ne_newline_append (by decide) hpk
  have hipsq : '\n' ∉ ("AllowedIPs = " ++ joinComma c.server_allowed_ips).data :=
    ne_newline_append (by decide) (joinComma_ne_newline _ hips)
  have base : allCommented ((("# Name: " ++ c.name) ++
      ("\n# UUID: " ++ uuidToString c.uuid)).data) :=
    allCommented_step _ ("UUID: " ++ uuidToString c.uuid)
      (allCommented_name_line c.name hname) huuid
  rcases hps : c.preshared_key with _ | pskv <;>
    rcases hka : c.persistent_keep_alive with _ | kav <;>
    simp only [get_server_peer_config, hen, hps, hka, Bool.false_eq_true, if_false]
  · exact allCommented_append_empty _
      (allCommented_step _ ("AllowedIPs = " ++ joinComma c.server_allowed_ips)
        (allCommented_append_empty _
          (allCommented_step _ ("PublicKey = " ++ c.public_key)
            (allCommented_step _ "[Peer]" base hpeer) hpkq)) hipsq)
  · exact allCommented_step _ ("PersistentKeepAlive = " ++ Nat.repr kav)
      (allCommented_step _ ("AllowedIPs = " ++ joinComma c.server_allowed_ips)
        (allCommented_append_empty _
          (allCommented_step _ ("PublicKey = " ++ c.public_key)
            (allCommented_step _ "[Peer]" base hpeer) hpkq)) hipsq)
      (ne_newline_append (by decide) (natRepr_ne_newline kav))
  · exact allCommented_append_empty _
      (allCommented_step _ ("AllowedIPs = " ++ joinComma c.server_allowed_ips)
        (allCommented_step _ ("PresharedKey = " ++ pskv)
          (allCommented_step _ ("PublicKey = " ++ c.public_key)
            (allCommented_step _ "[Peer]" base hpeer) hpkq)
          (ne_newline_append (by decide) (hpsk pskv hps))) hipsq)
  · exact allCommented_step _ ("PersistentKeepAlive = " ++ Nat.repr kav)
      (allCommented_step _ ("AllowedIPs = " ++ joinComma c.server_allowed_ips)
        (allCommented_step _ ("PresharedKey = " ++ pskv)
          (allCommented_step _ ("PublicKey = " ++ c.public_key)
            (allCommented_step _ "[Peer]" base hpeer) hpkq)
          (ne_newline_append (by decide) (hpsk pskv hps))) hipsq)
      (ne_newline_append (by decide) (natRepr_ne_newline kav))

theorem append_keeps_shape2 {x a b : List Char}
    (h : ∃ t, x = a ++ '\n' :: (b ++ '\n' :: t)) (y : List Char) :
    ∃ t, x ++ y = a ++ '\n' :: (b ++ '\n' :: t) := by
  obtain ⟨t, rfl⟩ := h
  refine ⟨t ++ y, ?_⟩
  simp [List.append_assoc]

theorem block_first_lines (c : WireGuardClientData) (hname : '\n' ∉ c.name.data) :
    ∃ rest, splitOnChar '\n' (get_server_peer_config c).data =
      ("# Name: " ++ c.name).data :: ("# UUID: " ++ uuidToString c.uuid).data :: rest := by
  have hA : '\n' ∉ ("# Name: " ++ c.name).data := ne_newline_append (by decide) hname
  have hB : '\n' ∉ ("# UUID: " ++ uuidToString c.uuid).data :=
    ne_newline_append (by decide) (uuidToString_ne_newline c.uuid)
  have hshape : ∃ t, (get_server_peer_config c).data =
      ("# Name: " ++ c.name).data ++ '\n' ::
        (("# UUID: " ++ uuidToString c.uuid).data ++ '\n' :: t) := by
    cases hen : c.enabled
    · have hbase : ∃ t, ((("# Name: " ++ c.name) ++
          ("\n# UUID: " ++ uuidToString c.uuid)) ++ ("\n# " ++ "[Peer]")).data =
          ("# Name: " ++ c.name).data ++ '\n' ::
            (("# UUID: " ++ uuidToString c.uuid).data ++ '\n' :: t) := by
        refine ⟨'#' :: ' ' :: ("[Peer]" : String).data, ?_⟩
        have h1 : ((("# Name: " ++ c.name) ++
            ("\n# UUID: " ++ uuidToString c.uuid)) ++ ("\n# " ++ "[Peer]")).data =
            (("# Name: " ++ c.name).data ++ '\n' ::
              ("# UUID: " ++ uuidToString c.uuid).data) ++
              '\n' :: '#' :: ' ' :: ("[Peer]" : String).data := rfl
        rw [h1]
        simp [List.append_assoc]
      simp only [get_server_peer_config, hen, Bool.false_eq_true, if_false]
      exact append_keeps_shape2 (append_keeps_shape2 (append_keeps_shape2
        (append_keeps_shape2 hbase _) _) _) _
    · have hbase : ∃ t, ((("# Name: " ++ c.name) ++
          ("\n# UUID: " ++ uuidToString c.uuid)) ++ ("\n" ++ "[Peer]")).data =
          ("# Name: " ++ c.name).data ++ '\n' ::
            (("# UUID: " ++ uuidToString c.uuid).data ++ '\n' :: t) := by
        refine ⟨("[Peer]" : String).data, ?_⟩
        have h1 : ((("# Name: " ++ c.name) ++
            ("\n# UUID: " ++ uuidToString c.uuid)) ++ ("\n" ++ "[Peer]")).data =
            (("# Name: " ++ c.name).data ++ '\n' ::
              ("# UUID: " ++ uuidToString c.uuid).data) ++
              '\n' :: ("[Peer]" : String).data := rfl
        rw [h1]
        simp [List.append_assoc]
      simp only [get_server_peer_config, hen, if_true]
      exact append_keeps_shape2 (append_keeps_shape2 (append_keeps_shape2
        (append_keeps_shape2 hbase _) _) _) _
  obtain ⟨t, ht⟩ := hshape
  refine ⟨splitOnChar '\n' t, ?_⟩
  rw [ht, splitOnChar_append_sep, splitOnChar_append_sep,
    splitOnChar_not_mem hA, splitOnChar_not_mem hB]
  rfl

/-! ## Roundtrip lemmas for the JSON dataset file -/

theorem toHexFixed_length (w : Nat) : ∀ n, (toHexFixed w n).length = w := by
  induction w with
  | zero => intro n; rfl
  | succ w ih =>
    intro n
    rw [toHexFixed]
    simp [ih]

theorem hexVal_hexChar : ∀ d, d < 16 → hexVal (hexChar d) = some d := by decide

theorem hexChar_ne_hyphen (n : Nat) : hexChar n ≠ '-' := by
  by_cases h : n < 16
  · interval_cases n <;> decide
  · obtain ⟨m, rfl⟩ : ∃ m, n = m + 16 := ⟨n - 16, by omega⟩
    have hm : hexChar (m + 16) = 'f' := rfl
    rw [hm]
    decide

theorem foldl_toHexFixed (w : Nat) :
    ∀ n a, n < 16 ^ w →
      (toHexFixed w n).foldl (fun acc c => acc * 16 + (hexVal c).getD 0) a =
        a * 16 ^ w + n := by
  induction w with
  | zero =>
    intro n a h
    have : n = 0 := by simpa using h
    simp [toHexFixed, this]
  | succ w ih =>
    intro n a h
    have hdiv : n / 16 < 16 ^ w := by
      rw [Nat.div_lt_iff_lt_mul (by norm_num)]
      calc n < 16 ^ (w + 1) := h
        _ = 16 ^ w * 16 := by rw [pow_succ]
    rw [toHexFixed, List.foldl_append, ih (n / 16) a hdiv]
    simp only [List.foldl_cons, List.foldl_nil,
      hexVal_hexChar (n % 16) (Nat.mod_lt _ (by norm_num)), Option.getD_some]
    rw [pow_succ, Nat.add_mul, ← Nat.mul_assoc, Nat.add_assoc]
    congr 1
    omega

theorem filter_toHexFixed_hyphen (w n : Nat) :
    (toHexFixed w n).filter (fun c => c ≠ '-') = toHexFixed w n := by
  rw [List.filter_eq_self]
  intro c hc
  obtain ⟨d, rfl⟩ := mem_toHexFixed hc
  simp [hexChar_ne_hyphen d]

theorem parseUuidStr_uuidSimple (u : Nat) (h : u < 2 ^ 128) :
    parseUuidStr (uuidSimple u) = some u := by
  have hdata : (uuidSimple u).data = toHexFixed 32 u := rfl
  have hlen : (toHexFixed 32 u).length = 32 := toHexFixed_length 32 u
  have hall : (toHexFixed 32 u).all (fun c => (hexVal c).isSome) = true := by
    rw [List.all_eq_true]
    intro c hc
    obtain ⟨d, rfl⟩ := mem_toHexFixed hc
    rcases Nat.lt_or_ge d 16 with hlt | hge
    · simp [hexVal_hexChar d hlt]
    · obtain ⟨m, rfl⟩ : ∃ m, d = m + 16 := ⟨d - 16, by omega⟩
      have hm : hexChar (m + 16) = 'f' := rfl
      rw [hm]
      decide
  have h16 : u < 16 ^ 32 := by
    calc u < 2 ^ 128 := h
      _ = 16 ^ 32 := by norm_num
  rw [parseUuidStr, hdata, filter_toHexFixed_hyphen, if_pos ⟨hlen, hall⟩,
    foldl_toHexFixed 32 u 0 h16]
  norm_num

theorem parseOptStr_roundtrip (x : Option String) :
    parseOptWith parseStr (some (jsonOfOptStr x)) = .ok x := by
  cases x <;> rfl

theorem parseOptU16_roundtrip (x : Option Nat) (h : ∀ k ∈ x, k < 65536) :
    parseOptWith parseU16 (some (jsonOfOptNum x)) = .ok x := by
  cases x with
  | none => rfl
  | some n =>
    have hn : n < 65536 := h n rfl
    simp [jsonOfOptNum, parseOptWith, parseU16, if_pos hn]
    rfl

theorem parseStrListAux_roundtrip (xs : List String) :
    parseStrListAux (xs.map Json.str) = .ok xs := by
  induction xs with
  | nil => rfl
  | cons x xs ih =>
    simp [parseStrListAux, parseStr, ih]
    rfl

theorem parseStrList_roundtrip (xs : List String) :
    parseStrList (.arr (xs.map Json.str)) = .ok xs := by
  simp [parseStrList, parseStrListAux_roundtrip]

theorem parseUuid_roundtrip (u : Nat) (h : u < 2 ^ 128) :
    parseUuid (.str (uuidSimple u)) = .ok u := by
  simp [parseUuid, parseUuidStr_uuidSimple u h]

theorem deserialize_serialize_client (c : WireGuardClientData) (h : wfClient c) :
    deserialize_client (serialize_client c) = .ok c := by
  obtain ⟨hu, hka⟩ := h
  rw [serialize_client, deserialize_client]
  simp [List.lookup, parseReq, parseStr, parseBool,
    parseOptStr_roundtrip, parseOptU16_roundtrip _ hka,
    parseStrList_roundtrip, parseUuid_roundtrip _ hu]
  rfl

theorem deserialize_serialize_server (s : WireGuardServerData) (h : wfServer s) :
    deserialize_server (serialize_server s) = .ok s := by
  obtain ⟨hp, hm⟩ := h
  rw [serialize_server, deserialize_server]
  simp [List.lookup, parseReq, parseStr, parseU16, if_pos hp,
    parseOptStr_roundtrip, parseOptU16_roundtrip _ hm, parseStrList_roundtrip]
  rfl

theorem parseClientsAux_roundtrip (cs : List WireGuardClientData)
    (h : ∀ c ∈ cs, wfClient c) :
    parseClientsAux (cs.map serialize_client) = .ok cs := by
  induction cs with
  | nil => rfl
  | cons c cs ih =>
    have hc := deserialize_serialize_client c (h c (by simp))
    have hrest := ih (fun c' hc' => h c' (List.mem_cons_of_mem _ hc'))
    simp [parseClientsAux, hc, hrest]
    rfl

theorem read_save_json_roundtrip (d : WireGuardData) (h : wfData d) :
    read_json_file (save_json_file d) = .ok d := by
  obtain ⟨server, clients⟩ := d
  obtain ⟨hs, hc⟩ := h
  have hclients : parseClientsAux (clients.map serialize_client) = .ok clients :=
    parseClientsAux_roundtrip clients (fun c hc' => hc c hc')
  rw [save_json_file, read_json_file, serialize_wireguard_data, deserialize_wireguard_data]
  cases server with
  | none =>
    simp [List.lookup, parseOptWith, hclients]
    rfl
  | some s =>
    have hsrv := deserialize_serialize_server s (hs s rfl)
    have hred : parseOptWith deserialize_server (some (serialize_server s)) =
        Except.map some (deserialize_server (serialize_server s)) := rfl
    simp [List.lookup, hred, hsrv, hclients]
    rfl

/-! ## Helper lemmas for the DataStore invariants -/

theorem list_set_getElem_self {α : Type _} :
    ∀ (l : List α) (i : Nat) (h : i < l.length), l.set i (l[i]) = l
  | _ :: _, 0, _ => rfl
  | a :: l, i + 1, h => by
    have := list_set_getElem_self l i (by simpa using h)
    simp [List.set, this]

theorem put_client_uuids_eq {u : Nat} {b : WireGuardClientData} (hb : b.uuid = u)
    {l : List WireGuardClientData} {i : Nat}
    (h : l.findIdx? (fun c => c.uuid = u) = some i) :
    (l.set i b).map (fun c => c.uuid) = l.map (fun c => c.uuid) := by
  obtain ⟨hlen, hp, -⟩ := List.findIdx?_eq_some_iff_getElem.mp h
  have hi : l[i].uuid = u := by simpa using hp
  rw [List.map_set]
  have hlen2 : i < (l.map (fun c => c.uuid)).length := by simpa using hlen
  have hval : b.uuid = (l.map (fun c => c.uuid))[i] := by
    rw [hb, ← hi]
    simp
  rw [hval, list_set_getElem_self]

/-! ## Claims -/

/-- C1 (counterexample): from a state whose client UUIDs are all distinct,
update-client with a body whose UUID differs from the path UUID, and
replace-all with a duplicate-containing list, both produce duplicate UUIDs. -/
theorem c1_counterexample :
    (clientUuids ⟨none, [mkTestClient 1, mkTestClient 2]⟩).Nodup
    ∧ ¬ (clientUuids (put_wireguard_client testEnvOk 1 (mkTestClient 2)
        ⟨none, [mkTestClient 1, mkTestClient 2]⟩).1).Nodup
    ∧ ¬ (clientUuids (put_wireguard_clients testEnvOk [mkTestClient 1, mkTestClient 1]
        ⟨none, [mkTestClient 2]⟩).1).Nodup := by
  refine ⟨by decide, by decide, by decide⟩

/-- C1 (amended): create-client preserves distinctness of client UUIDs, and
update-client preserves it whenever the replacement body keeps the targeted
UUID; replace-all installs the given list verbatim and update-client with a
changed UUID may introduce duplicates. -/
theorem c1_uuid_uniqueness_amended :
    (∀ (env : Env) (body : WireGuardOptionalClientData) (st : WireGuardData),
      (clientUuids st).Nodup →
      (clientUuids (post_wireguard_clients env body st).1).Nodup)
    ∧ (∀ (env : Env) (u : Nat) (body : WireGuardClientData) (st : WireGuardData),
      body.uuid = u → (clientUuids st).Nodup →
      (clientUuids (put_wireguard_client env u body st).1).Nodup) := by
  constructor
  · intro env body st h
    rcases hconv : to_wireguard_client_data env body none st with e | c
    · simpa [post_wireguard_clients, hconv] using h
    · by_cases hdup : st.clients.any (fun client => client.uuid = c.uuid) = true
      · simpa [post_wireguard_clients, hconv, hdup] using h
      · have hnotin : c.uuid ∉ st.clients.map (fun client => client.uuid) := by
          intro hmem
          apply hdup
          rw [List.any_eq_true]
          obtain ⟨x, hx, hxe⟩ := List.mem_map.mp hmem
          exact ⟨x, hx, by simp [hxe]⟩
        rcases hsv : env.saveJson with e' | v <;>
          simp [post_wireguard_clients, hconv, hdup, hsv, clientUuids,
            List.nodup_append, h, hnotin] <;>
          exact h
  · intro env u body st hb h
    rcases hfind : st.clients.findIdx? (fun client => client.uuid = u) with _ | i
    · simpa [put_wireguard_client, hfind] using h
    · rcases hsv : env.saveJson with e' | v <;>
        simp only [put_wireguard_client, hfind, hsv] <;>
        · show (List.map _ (st.clients.set i body)).Nodup
          rw [put_client_uuids_eq hb hfind]
          exact h

/-- C1 (witness): the amended theorem applied at concrete inputs. -/
theorem c1_amended_witness :
    (clientUuids (post_wireguard_clients testEnvOk testBody
      ⟨some testServer, [mkTestClient 2]⟩).1).Nodup
    ∧ (clientUuids (put_wireguard_client testEnvOk 1 (mkTestClient 1)
      ⟨none, [mkTestClient 1, mkTestClient 2]⟩).1).Nodup :=
  ⟨c1_uuid_uniqueness_amended.1 testEnvOk testBody ⟨some testServer, [mkTestClient 2]⟩
      (by decide),
    c1_uuid_uniqueness_amended.2 testEnvOk 1 (mkTestClient 1)
      ⟨none, [mkTestClient 1, mkTestClient 2]⟩ rfl (by decide)⟩

/-- C2 (counterexample): `wg-quick up` launched and exited with status 1,
yet `start_wireguard` reports success — a nonzero exit status is not turned
into an error; the same holds for stop and reload. -/
theorem c2_counterexample :
    (start_wireguard exitOneEnv "wg0").1 = .ok ()
    ∧ exitOneEnv (WgCmd.up "wg0") = .ok 1
    ∧ (1 : Int) ≠ 0
    ∧ (stop_wireguard exitOneEnv "wg0").1 = .ok ()
    ∧ (reload_wireguard exitOneEnv "wg0").1 = .ok () :=
  ⟨rfl, rfl, by decide, rfl, rfl⟩

/-- C2 (amended): each of start, stop and reload returns an error exactly
when the external tool fails to launch, and that error is the launch error;
whenever the tool launches, the operation reports success regardless of the
exit status; restart succeeds exactly when both of its launches succeed. -/
theorem c2_launch_failure_only_amended (env : ExecEnv) (interface : String) :
    ((start_wireguard env interface).1 = .ok () ↔ ∃ s, env (.up interface) = .ok s)
    ∧ (∀ e, env (.up interface) = .error e →
        (start_wireguard env interface).1 = .error e)
    ∧ ((stop_wireguard env interface).1 = .ok () ↔ ∃ s, env (.down interface) = .ok s)
    ∧ (∀ e, env (.down interface) = .error e →
        (stop_wireguard env interface).1 = .error e)
    ∧ ((reload_wireguard env interface).1 = .ok () ↔ ∃ s, env (.reloadCmd interface) = .ok s)
    ∧ (∀ e, env (.reloadCmd interface) = .error e →
        (reload_wireguard env interface).1 = .error e)
    ∧ ((restart_wireguard env interface).1 = .ok () ↔
        (∃ s, env (.down interface) = .ok s) ∧ ∃ s, env (.up interface) = .ok s) := by
  refine ⟨?_, ?_, ?_, ?_, ?_, ?_, ?_⟩
  · rcases h : env (.up interface) with e | s <;> simp [start_wireguard, h]
  · intro e h; simp [start_wireguard, h]
  · rcases h : env (.down interface) with e | s <;> simp [stop_wireguard, h]
  · intro e h; simp [stop_wireguard, h]
  · rcases h : env (.reloadCmd interface) with e | s <;> simp [reload_wireguard, h]
  · intro e h; simp [reload_wireguard, h]
  · rcases h1 : env (.down interface) with e | s <;>
      rcases h2 : env (.up interface) with e' | s' <;>
      simp [restart_wireguard, stop_wireguard, start_wireguard, h1, h2]

/-- C2 (witness): the amended theorem applied at concrete executors. -/
theorem c2_amended_witness :
    (start_wireguard launchFailEnv "wg0").1 = .error "boom"
    ∧ (start_wireguard exitZeroEnv "wg0").1 = .ok () :=
  ⟨(c2_launch_failure_only_amended launchFailEnv "wg0").2.1 "boom" rfl,
    (c2_launch_failure_only_amended exitZeroEnv "wg0").1.mpr ⟨0, rfl⟩⟩

/-- C6 (confirmed): restart is exactly stop-then-start: a stop failure is
returned as the stop error with `wg-quick up` never invoked; a start failure
after a successful stop is returned as the start error; restart succeeds
exactly when both sub-operations succeed. -/
theorem c6_restart_stop_then_start (env : ExecEnv) (interface : String) :
    (∀ e, env (.down interface) = .error e →
      restart_wireguard env interface =
        (.error (.stopFailed e), [WgCmd.down interface]))
    ∧ (∀ e, env (.down interface) = .error e →
        WgCmd.up interface ∉ (restart_wireguard env interface).2)
    ∧ (∀ s e, env (.down interface) = .ok s → env (.up interface) = .error e →
        restart_wireguard env interface =
          (.error (.startFailed e), [WgCmd.down interface, WgCmd.up interface]))
    ∧ ((restart_wireguard env interface).1 = .ok () ↔
        (stop_wireguard env interface).1 = .ok ()
          ∧ (start_wireguard env interface).1 = .ok ()) := by
  refine ⟨?_, ?_, ?_, ?_⟩
  · intro e h
    simp [restart_wireguard, stop_wireguard, h]
  · intro e h
    simp [restart_wireguard, stop_wireguard, h]
  · intro s e h1 h2
    simp [restart_wireguard, stop_wireguard, start_wireguard, h1, h2]
  · rcases h1 : env (.down interface) with e | s <;>
      rcases h2 : env (.up interface) with e' | s' <;>
      simp [restart_wireguard, stop_wireguard, start_wireguard, h1, h2]

/-- C6 (witness): the restart theorem applied at concrete executors for both
failure orders. -/
theorem c6_witness :
    restart_wireguard launchFailEnv "wg0" =
      (.error (.stopFailed "boom"), [WgCmd.down "wg0"])
    ∧ WgCmd.up "wg0" ∉ (restart_wireguard launchFailEnv "wg0").2
    ∧ restart_wireguard downOkUpFailEnv "wg0" =
      (.error (.startFailed "upfail"), [WgCmd.down "wg0", WgCmd.up "wg0"]) :=
  ⟨(c6_restart_stop_then_start launchFailEnv "wg0").1 "boom" rfl,
    (c6_restart_stop_then_start launchFailEnv "wg0").2.1 "boom" rfl,
    (c6_restart_stop_then_start downOkUpFailEnv "wg0").2.2.1 0 "upfail" rfl rfl⟩

/-- C3 (confirmed): whenever the server's first configured address is
`10.8.0.1/24`, the address derived for a new client is `10.8.0.2/32`, for
every client list; the derivation reads only the server record, never the
already-assigned client addresses. -/
theorem c3_address_allocator (env : Env) (srv : WireGuardServerData)
    (rest : List String) (h : srv.address = "10.8.0.1/24" :: rest) :
    (∀ clients, derive_client_ip env ⟨some srv, clients⟩ = .ok "10.8.0.2/32")
    ∧ ∀ clients clients',
        derive_client_ip env ⟨some srv, clients⟩ =
          derive_client_ip env ⟨some srv, clients'⟩ := by
  constructor
  · intro clients
    simp only [derive_client_ip, allocator_base_address, h]
    rfl
  · intro clients clients'
    rfl

/-- C3 (witness): the allocator theorem applied at a concrete server whose
base address is `10.8.0.1/24` and a client list already occupying `.2`. -/
theorem c3_witness :
    derive_client_ip testEnvOk ⟨some testServer, [mkTestClient 1]⟩ = .ok "10.8.0.2/32" :=
  (c3_address_allocator testEnvOk testServer [] rfl).1 [mkTestClient 1]

/-- C4 (counterexample): a disabled client whose name embeds a newline
renders a peer block in which not every line carries the `# ` prefix. -/
theorem c4_counterexample :
    badNameClient.enabled = false
    ∧ ¬ allCommented (get_server_peer_config badNameClient).data :=
  ⟨rfl, by decide⟩

/-- C4 (amended): for every client whose name, public key, preshared key and
allowed-IP entries contain no newline character, a disabled client's rendered
peer block has every line comment-prefixed, and every client's block carries
the name and the UUID as its first two lines, both comment lines. -/
theorem c4_peer_block_rendering_amended (c : WireGuardClientData)
    (hname : '\n' ∉ c.name.data) (hpk : '\n' ∉ c.public_key.data)
    (hpsk : ∀ k, c.preshared_key = some k → '\n' ∉ k.data)
    (hips : ∀ ip ∈ c.server_allowed_ips, '\n' ∉ ip.data) :
    (c.enabled = false →
      ∀ line ∈ linesOf (get_server_peer_config c), isCommentLine line = true)
    ∧ ∃ rest, linesOf (get_server_peer_config c) =
        ("# Name: " ++ c.name).data :: ("# UUID: " ++ uuidToString c.uuid).data :: rest
        ∧ isCommentLine (("# Name: " ++ c.name).data) = true
        ∧ isCommentLine (("# UUID: " ++ uuidToString c.uuid).data) = true := by
  constructor
  · intro hen
    exact disabled_block_commented c hen hname hpk hpsk hips
  · obtain ⟨rest, hr⟩ := block_first_lines c hname
    exact ⟨rest, hr, rfl, rfl⟩

/-- C4 (witness): the amended rendering theorem applied at a concrete
disabled client. -/
theorem c4_amended_witness :
    (linesOf (get_server_peer_config (mkTestClient 3))).all isCommentLine = true
    ∧ (linesOf (get_server_peer_config (mkTestClient 3))).take 2 =
        [("# Name: " ++ (mkTestClient 3).name).data,
          ("# UUID: " ++ uuidToString (mkTestClient 3).uuid).data] := by
  constructor
  · rw [List.all_eq_true]
    exact (c4_peer_block_rendering_amended (mkTestClient 3) (by decide) (by decide)
      (by intro k hk; simp [mkTestClient] at hk) (by decide)).1 rfl
  · obtain ⟨rest, hr, -, -⟩ := (c4_peer_block_rendering_amended (mkTestClient 3)
      (by decide) (by decide) (by intro k hk; simp [mkTestClient] at hk) (by decide)).2
    rw [hr]
    rfl

/-- C5 (confirmed): a create-client request whose record builds successfully
but whose explicit UUID already exists in the dataset is answered with
`409 CONFLICT` and the dataset is returned unchanged. -/
theorem c5_create_conflict (env : Env) (body : WireGuardOptionalClientData)
    (st : WireGuardData) (c : WireGuardClientData)
    (hconv : to_wireguard_client_data env body none st = .ok c)
    (hdup : c.uuid ∈ clientUuids st) :
    post_wireguard_clients env body st = (st, 409) := by
  have hany : st.clients.any (fun client => client.uuid = c.uuid) = true := by
    rw [List.any_eq_true]
    obtain ⟨x, hx, hxe⟩ := List.mem_map.mp hdup
    exact ⟨x, hx, by simp [hxe]⟩
  simp [post_wireguard_clients, hconv, hany]

/-- C5 (witness): the conflict theorem applied at a concrete request whose
explicit UUID `1` is already taken. -/
theorem c5_witness :
    post_wireguard_clients testEnvOk testBody ⟨some testServer, [mkTestClient 1]⟩ =
      (⟨some testServer, [mkTestClient 1]⟩, 409) :=
  c5_create_conflict testEnvOk testBody ⟨some testServer, [mkTestClient 1]⟩
    { name := "n", uuid := 1, enabled := true, preshared_key := none,
      public_key := "pub-KEY", server_allowed_ips := ["10.8.0.9/32"],
      persistent_keep_alive := none, private_key := "KEY",
      address := "10.8.0.9/32", client_allowed_ips := ["0.0.0.0/0"], dns := [] }
    rfl (by decide)

theorem get_peers_clients_all_parse (parseKey : String → Except String String)
    (snapshot : List (String × RawPeer)) :
    ∀ clients : List WireGuardClientData,
      (∀ c ∈ clients, ∃ k, parseKey c.public_key = .ok k) →
      get_peers_clients parseKey snapshot clients =
        .ok (clients.filterMap (fun c =>
          match parseKey c.public_key with
          | .ok k => (snapshot.lookup k).map (mkWireGuardPeer c)
          | .error _ => none)) := by
  intro clients
  induction clients with
  | nil => intro _; rfl
  | cons c rest ih =>
    intro hall
    obtain ⟨k, hk⟩ := hall c (by simp)
    have hrest := ih (fun c' hc' => hall c' (List.mem_cons_of_mem _ hc'))
    rcases hlk : snapshot.lookup k with _ | raw <;>
      simp [get_peers_clients, List.filterMap_cons, hk, hlk, hrest]

theorem get_peers_clients_fail_fast (parseKey : String → Except String String)
    (snapshot : List (String × RawPeer)) :
    ∀ (pre : List WireGuardClientData) (c : WireGuardClientData)
      (post : List WireGuardClientData) (e : String),
      (∀ c' ∈ pre, ∃ k, parseKey c'.public_key = .ok k) →
      parseKey c.public_key = .error e →
      get_peers_clients parseKey snapshot (pre ++ c :: post) =
        .error (.invalidPublicKey c.public_key c.name) := by
  intro pre
  induction pre with
  | nil =>
    intro c post e _ hfail
    simp [get_peers_clients, hfail]
  | cons p pre' ih =>
    intro c post e hall hfail
    obtain ⟨k, hk⟩ := hall p (by simp)
    have hrest := ih c post e (fun c' hc' => hall c' (List.mem_cons_of_mem _ hc')) hfail
    rcases hlk : snapshot.lookup k with _ | raw <;>
      simp [get_peers_clients, hk, hlk, hrest]

/-- C7 (confirmed): when the live snapshot was read successfully and every
stored public key parses, the reconciliation returns, in stored order,
exactly the clients whose key is present in the snapshot, each carrying that
peer's live counters (clients absent from the snapshot are omitted); when
some stored key fails to parse, the whole reconciliation returns the
`InvalidPublicKey` error naming the first offending client. -/
theorem c7_peer_reconciliation (parseKey : String → Except String String)
    (snapshot : List (String × RawPeer)) (server : Option WireGuardServerData)
    (clients : List WireGuardClientData) :
    ((∀ c ∈ clients, ∃ k, parseKey c.public_key = .ok k) →
      get_peers parseKey (.ok snapshot) ⟨server, clients⟩ =
        .ok (clients.filterMap (fun c =>
          match parseKey c.public_key with
          | .ok k => (snapshot.lookup k).map (mkWireGuardPeer c)
          | .error _ => none)))
    ∧ ∀ (pre : List WireGuardClientData) (c : WireGuardClientData)
        (post : List WireGuardClientData) (e : String),
        clients = pre ++ c :: post →
        (∀ c' ∈ pre, ∃ k, parseKey c'.public_key = .ok k) →
        parseKey c.public_key = .error e →
        get_peers parseKey (.ok snapshot) ⟨server, clients⟩ =
          .error (.invalidPublicKey c.public_key c.name) := by
  constructor
  · intro hall
    exact get_peers_clients_all_parse parseKey snapshot clients hall
  · intro pre c post e hsplit hall hfail
    rw [show get_peers parseKey (.ok snapshot) ⟨server, clients⟩ =
      get_peers_clients parseKey snapshot clients from rfl, hsplit]
    exact get_peers_clients_fail_fast parseKey snapshot pre c post e hall hfail

/-- C7 (witness): the reconciliation theorem applied at a concrete snapshot
holding the key of one stored client and not the other, and at a stored list
whose second client's key is malformed. -/
theorem c7_witness :
    get_peers testParseKey (.ok [("PK", testRaw)])
        ⟨none, [mkTestClient 1, { mkTestClient 2 with public_key := "absent" }]⟩ =
      .ok [mkWireGuardPeer (mkTestClient 1) testRaw]
    ∧ get_peers testParseKey (.ok [("PK", testRaw)])
        ⟨none, [mkTestClient 1, { mkTestClient 2 with public_key := "BAD" }]⟩ =
      .error (.invalidPublicKey "BAD" "c") := by
  constructor
  · have h := (c7_peer_reconciliation testParseKey [("PK", testRaw)] none
      [mkTestClient 1, { mkTestClient 2 with public_key := "absent" }]).1
      (by
        intro c hc
        rcases List.mem_cons.mp hc with rfl | hc
        · exact ⟨"PK", rfl⟩
        rcases List.mem_cons.mp hc with rfl | hc
        · exact ⟨"absent", rfl⟩
        · simp at hc)
    rw [h]
    rfl
  · exact (c7_peer_reconciliation testParseKey [("PK", testRaw)] none
      [mkTestClient 1, { mkTestClient 2 with public_key := "BAD" }]).2
      [mkTestClient 1] { mkTestClient 2 with public_key := "BAD" } [] "malformed key"
      rfl
      (by
        intro c hc
        rcases List.mem_cons.mp hc with rfl | hc
        · exact ⟨"PK", rfl⟩
        · simp at hc)
      (by rfl)

/-- C8 (confirmed): when the synchronous persistence step fails, every
mutating handler answers `500` with the persistence failure, and the
in-memory dataset it returns still carries the applied mutation — the new
client stays appended, the replaced record stays replaced, the installed
list stays installed, and the upserted or deleted server record keeps its
new value. -/
theorem c8_persistence_failure_keeps_mutation (env : Env) (msg : String)
    (hsv : env.saveJson = .error msg) :
    (∀ body st c, to_wireguard_client_data env body none st = .ok c →
      st.clients.any (fun client => client.uuid = c.uuid) = false →
      post_wireguard_clients env body st = ({ st with clients := st.clients ++ [c] }, 500))
    ∧ (∀ u body st i, st.clients.findIdx? (fun client => client.uuid = u) = some i →
      put_wireguard_client env u body st = ({ st with clients := st.clients.set i body }, 500))
    ∧ (∀ body st, put_wireguard_clients env body st = ({ st with clients := body }, 500))
    ∧ (∀ (b : WireGuardOptionalServerData) st s,
      to_wireguard_server_data env b (st.server.map (fun srv => srv.endpoint)) = .ok s →
      put_wireguard_server env (some b) st = ({ st with server := some s }, 500))
    ∧ (∀ st, put_wireguard_server env none st = ({ st with server := none }, 500))
    ∧ (∀ st, delete_wireguard_server env st = ({ st with server := none }, 500)) := by
  refine ⟨?_, ?_, ?_, ?_, ?_, ?_⟩
  · intro body st c hconv hany
    simp [post_wireguard_clients, hconv, hany, hsv]
  · intro u body st i hfind
    simp [put_wireguard_client, hfind, hsv]
  · intro body st
    simp [put_wireguard_clients, hsv]
  · intro b st s hconv
    simp [put_wireguard_server, hconv, hsv]
    rfl
  · intro st
    simp [put_wireguard_server, hsv]
  · intro st
    simp [delete_wireguard_server, hsv]

/-- C8 (witness): the persistence-failure theorem applied at concrete
requests against a failing store. -/
theorem c8_witness :
    put_wireguard_clients testEnvSaveFail [mkTestClient 1] ⟨none, []⟩ =
      (⟨none, [mkTestClient 1]⟩, 500)
    ∧ delete_wireguard_server testEnvSaveFail ⟨some testServer, []⟩ =
      (⟨none, []⟩, 500) :=
  ⟨(c8_persistence_failure_keeps_mutation testEnvSaveFail "disk full" rfl).2.2.1
      [mkTestClient 1] ⟨none, []⟩,
    (c8_persistence_failure_keeps_mutation testEnvSaveFail "disk full" rfl).2.2.2.2.2
      ⟨some testServer, []⟩⟩

/-- C9 (confirmed): saving any well-formed dataset to the JSON dataset file
and loading it back yields the dataset unchanged, across the server record
and every field of every client, preserving order. -/
theorem c9_save_load_roundtrip (d : WireGuardData) (h : wfData d) :
    read_json_file (save_json_file d) = .ok d :=
  read_save_json_roundtrip d h

/-- C9 (witness): the roundtrip theorem applied at a concrete dataset with a
server and two clients. -/
theorem c9_witness :
    read_json_file (save_json_file ⟨some testServer, [mkTestClient 1, mkTestClient 2]⟩) =
      .ok ⟨some testServer, [mkTestClient 1, mkTestClient 2]⟩ :=
  c9_save_load_roundtrip ⟨some testServer, [mkTestClient 1, mkTestClient 2]⟩
    (by
      constructor
      · intro s hs
        rw [Option.mem_def] at hs
        cases hs
        exact ⟨by decide, by intro m hm; simp [testServer] at hm⟩
      · intro c hc
        rcases List.mem_cons.mp hc with rfl | hc
        · exact ⟨by decide, by intro k hk; simp [mkTestClient] at hk⟩
        rcases List.mem_cons.mp hc with rfl | hc
        · exact ⟨by decide, by intro k hk; simp [mkTestClient] at hk⟩
        · simp at hc)

/-- C10 (confirmed): with no server record the rendered configuration is
`none` for every client list, and the config-file write performed before a
restart or reload stores the empty string, truncating whatever the file held
before. -/
theorem c10_no_server_empty_config (data : WireGuardData) (cfg : AppConfig)
    (h : data.server = none) :
    get_server_config data cfg = none
    ∧ save_wireguard_config data cfg = ""
    ∧ ∀ previous, config_file_after_save previous data cfg = "" := by
  refine ⟨?_, ?_, ?_⟩
  · simp [get_server_config, h]
  · simp [save_wireguard_config, get_server_config, h]
  · intro previous
    simp [config_file_after_save, save_wireguard_config, get_server_config, h]

/-- C10 (witness): the empty-config theorem applied at a concrete dataset
with clients but no server, over a previously non-empty file. -/
theorem c10_witness :
    get_server_config ⟨none, [mkTestClient 1]⟩ testCfg = none
    ∧ config_file_after_save "old rendered config" ⟨none, [mkTestClient 1]⟩ testCfg = "" :=
  ⟨(c10_no_server_empty_config ⟨none, [mkTestClient 1]⟩ testCfg rfl).1,
    (c10_no_server_empty_config ⟨none, [mkTestClient 1]⟩ testCfg rfl).2.2
      "old rendered config"⟩
